import Mathlib

/-!
Verification of `app/utils/gui.py` from the ImageDatabase repository.

The module is a collection of GUI helper functions over the Qt toolkit.
Since every dialog call blocks on the toolkit and returns the user's
selection, each helper is embedded as a pure function taking the raw
dialog result (the value `exec_` / the static `QFileDialog` helpers
return) as an explicit argument, together with the ambient configuration
it reads (the image-extension whitelist `constants.IMAGE_FILE_EXTENSIONS`).
Paths are modelled as lists of characters; `pathlib.Path(s).absolute()`
only resolves a path against the current working directory, which changes
neither the file name nor its extension, so it is modelled as the identity
on the path string.
-/

namespace Gui

/-- Qt color with four 8-bit channels.  `QColor(r, g, b)` in the source
constructs a color whose alpha channel defaults to 255 (fully opaque);
`QColor.==` in Qt compares all four channels. -/
structure QColor where
  red : Fin 256
  green : Fin 256
  blue : Fin 256
  alpha : Fin 256 := 255
  deriving DecidableEq, Repr

/-- `negate` from the source: `QColor(255 - color.red(), 255 - color.green(),
255 - color.blue())` — the alpha argument is omitted, so it is the
constructor's default 255. -/
def negate (color : QColor) : QColor :=
  { red := ⟨255 - color.red.val, by omega⟩
    green := ⟨255 - color.green.val, by omega⟩
    blue := ⟨255 - color.blue.val, by omega⟩ }

/-- `_BLACK = QColor(0, 0, 0)` from the source. -/
def _BLACK : QColor := { red := 0, green := 0, blue := 0 }

/-- `_WHITE = QColor(255, 255, 255)` from the source. -/
def _WHITE : QColor := { red := 255, green := 255, blue := 255 }

/-- Number of binary digits of `n` (`0` for `0`), by fuelled structural
recursion so that it evaluates by kernel reduction. -/
def bitsAux : Nat → Nat → Nat
  | 0, _ => 0
  | fuel + 1, n => if n = 0 then 0 else bitsAux fuel (n / 2) + 1

/-- `bits n = ⌊log₂ n⌋ + 1` for positive `n`. -/
def bits (n : Nat) : Nat := bitsAux n n

/-- A nonnegative IEEE-754 binary64 value, as the exact dyadic rational
`m * 2 ^ e` it represents.  Every value in the luminance computation is
nonnegative and in the normal range, so this fragment of the format
suffices. -/
structure Dbl where
  m : Nat
  e : Int
  deriving DecidableEq, Repr

/-- Round the nonnegative dyadic `m * 2 ^ e` to at most 53 significant
bits, to nearest with ties to even — the IEEE-754 binary64 rounding every
arithmetic result undergoes. -/
def roundDyadic (m : Nat) (e : Int) : Dbl :=
  if m = 0 then ⟨0, 0⟩
  else
    let b := bits m
    if b ≤ 53 then ⟨m, e⟩
    else
      let sh := b - 53
      let n := m / 2 ^ sh
      let r := m % 2 ^ sh
      let half := 2 ^ (sh - 1)
      let n' := if r < half then n
        else if half < r then n + 1
        else if n % 2 = 0 then n else n + 1
      ⟨n', e + sh⟩

/-- The binary64 value nearest the nonnegative rational `num / den`
(round to nearest, ties to even): the correctly rounded result of a double
division of exactly representable operands, and the value of a decimal
literal with this exact rational value. -/
def roundRat (num den : Nat) : Dbl :=
  if num = 0 then ⟨0, 0⟩
  else
    let a := bits num - 1
    let b := bits den - 1
    let e0 : Int := (a : Int) - (b : Int)
    let ge : Bool := if 0 ≤ e0 then den * 2 ^ e0.toNat ≤ num
      else den ≤ num * 2 ^ (-e0).toNat
    let e : Int := if ge then e0 else e0 - 1
    let s : Int := 52 - e
    let p : Nat := if 0 ≤ s then num * 2 ^ s.toNat else num
    let q : Nat := if 0 ≤ s then den else den * 2 ^ (-s).toNat
    let n := p / q
    let r := p % q
    let n' := if 2 * r < q then n
      else if q < 2 * r then n + 1
      else if n % 2 = 0 then n else n + 1
    ⟨n', e - 52⟩

/-- Double multiplication: the exact product, rounded. -/
def dblMul (x y : Dbl) : Dbl := roundDyadic (x.m * y.m) (x.e + y.e)

/-- Double addition of nonnegative values: the exact sum, rounded. -/
def dblAdd (x y : Dbl) : Dbl :=
  if x.e ≤ y.e then roundDyadic (x.m + y.m * 2 ^ (y.e - x.e).toNat) x.e
  else roundDyadic (x.m * 2 ^ (x.e - y.e).toNat + y.m) y.e

/-- Strict `<` on doubles: exact comparison of the represented values. -/
def dblLt (x y : Dbl) : Bool :=
  if x.e ≤ y.e then x.m < y.m * 2 ^ (y.e - x.e).toNat
  else x.m * 2 ^ (x.e - y.e).toNat < y.m

/-- Qt's `QColor.redF()`: the stored 16-bit channel `red * 0x101` divided
by `65535.0` in double arithmetic — the double nearest `red / 255`. -/
def redF (c : QColor) : Dbl := roundRat (c.red.val * 257) 65535

/-- Qt's `QColor.greenF()`. -/
def greenF (c : QColor) : Dbl := roundRat (c.green.val * 257) 65535

/-- Qt's `QColor.blueF()`. -/
def blueF (c : QColor) : Dbl := roundRat (c.blue.val * 257) 65535

/-- The luminance as `font_color` actually computes it:
`0.2126 * bg_color.redF() + 0.7152 * bg_color.greenF() + 0.0722 * bg_color.blueF()`
evaluated left to right in IEEE-754 double arithmetic — each decimal
literal is the nearest double and every product and sum is rounded. -/
def luminance (bg_color : QColor) : Dbl :=
  dblAdd (dblAdd (dblMul (roundRat 2126 10000) (redF bg_color))
      (dblMul (roundRat 7152 10000) (greenF bg_color)))
    (dblMul (roundRat 722 10000) (blueF bg_color))

/-- `font_color` from the source: `_BLACK if luminance > 0.179 else _WHITE`;
comparing two doubles is exact comparison of the values they represent,
and `0.179` denotes the double nearest that decimal. -/
def font_color (bg_color : QColor) : QColor :=
  if dblLt (roundRat 179 1000) (luminance bg_color) then _BLACK else _WHITE

/-- The SPEC's luminance formula, in exact real arithmetic over the
normalized channels — the idealized value the claim compares the program
against, not what the program computes. -/
def spec_luminance (c : QColor) : ℚ :=
  2126 / 10000 * ((c.red.val : ℚ) / 255) + 7152 / 10000 * ((c.green.val : ℚ) / 255)
    + 722 / 10000 * ((c.blue.val : ℚ) / 255)

/-- Index of the LAST occurrence of `c` in `p` (Python `str.rfind`,
restricted to single-character needles), `none` when absent. -/
def rfind (c : Char) : List Char → Option Nat
  | [] => none
  | x :: xs =>
    match rfind c xs with
    | some i => some (i + 1)
    | none => if x = c then some 0 else none

/-- Python `os.path.splitext` (posix flavour): split at the last dot that
comes after the last path separator, unless every character of the base
name before that dot is itself a dot (so `.bashrc` has no extension). -/
def splitext (p : List Char) : List Char × List Char :=
  let sepIndex : Int := (rfind '/' p).elim (-1) (fun i => (i : Int))
  let dotIndex : Int := (rfind '.' p).elim (-1) (fun i => (i : Int))
  if sepIndex < dotIndex then
    if ((List.range p.length).filter
          (fun (i : Nat) => decide (sepIndex < (i : Int) ∧ (i : Int) < dotIndex))).all
        (fun i => p.getD i '.' = '.') then
      (p, [])
    else
      (p.take dotIndex.toNat, p.drop dotIndex.toNat)
  else
    (p, [])

/-- `os.path.splitext(p)[1].lower()[1:]` — the extension of `p`,
lower-cased, without its leading dot. -/
def extOf (p : List Char) : List Char :=
  ((splitext p).2.map Char.toLower).drop 1

/-- `FILTER_IMAGES = 0` from the source. -/
def FILTER_IMAGES : Nat := 0

/-- `FILTER_DB = 1` from the source. -/
def FILTER_DB : Nat := 1

/-- The inner `check_ext` of `open_file_chooser`:
`(mode == FILTER_IMAGES and ext in constants.IMAGE_FILE_EXTENSIONS)
 or (mode == FILTER_DB and ext == 'sqlite3')`, where `exts` stands for
`constants.IMAGE_FILE_EXTENSIONS`. -/
def check_ext (exts : List (List Char)) (mode : Nat) (p : List Char) : Bool :=
  (decide (mode = FILTER_IMAGES) && decide (extOf p ∈ exts))
    || (decide (mode = FILTER_DB) && decide (extOf p = "sqlite3".toList))

/-- `open_file_chooser` with `single_selection=True`: `selection` is the
string `QFileDialog.getOpenFileName` returned (empty when the dialog was
cancelled).  Returns the selected path, or `none` when cancelled or when
the defensive extension check fails. -/
def open_file_chooser_single (exts : List (List Char)) (mode : Nat)
    (selection : List Char) : Option (List Char) :=
  if selection ≠ [] then
    if check_ext exts mode selection then some selection else none
  else none

/-- `open_file_chooser` with `single_selection=False`: `selection` is the
list `QFileDialog.getOpenFileNames` returned (empty when the dialog was
cancelled).  Returns the selected paths that pass the defensive extension
check, or `none` when cancelled. -/
def open_file_chooser_multi (exts : List (List Char)) (mode : Nat)
    (selection : List (List Char)) : Option (List (List Char)) :=
  if selection ≠ [] then
    some (selection.filter (check_ext exts mode))
  else none

/-- Python `str.endswith`: `s` ends with `t`. -/
def endswith (s t : List Char) : Bool :=
  decide (t.length ≤ s.length) && decide (s.drop (s.length - t.length) = t)

/-- `open_playlist_saver`: `file` is the name `QFileDialog.getSaveFileName`
returned (empty when the dialog was cancelled).  `.play` is appended when
the name does not already end with it; an empty name yields `none`. -/
def open_playlist_saver (file : List Char) : Option (List Char) :=
  let ext := ".play".toList
  let file := if file ≠ [] && !endswith file ext then file ++ ext else file
  if file ≠ [] then some file else none

/-- Qt's `QMessageBox.Ok` standard-button flag. -/
def QMessageBox.Ok : Nat := 0x00000400

/-- Qt's `QMessageBox.Yes` standard-button flag. -/
def QMessageBox.Yes : Nat := 0x00004000

/-- Qt's `QMessageBox.No` standard-button flag. -/
def QMessageBox.No : Nat := 0x00010000

/-- Qt's `QMessageBox.Cancel` standard-button flag. -/
def QMessageBox.Cancel : Nat := 0x00400000

/-- The `answers` dictionary of `show_question`, as a partial map from the
standard-button value `mb.exec_()` returned; the outer `none` is Python's
`KeyError` on a button outside the dictionary. -/
def answers (button : Nat) : Option (Option Bool) :=
  if button = QMessageBox.Yes then some (some true)
  else if button = QMessageBox.No then some (some false)
  else if button = QMessageBox.Cancel then some none
  else none

/-- The `buttons` bitmask built by `show_question`:
`Yes | No`, with `Cancel` or-ed in when `cancel` is true. -/
def question_buttons (cancel : Bool) : Nat :=
  let buttons := QMessageBox.Yes ||| QMessageBox.No
  if cancel then buttons ||| QMessageBox.Cancel else buttons

/-- The standard buttons a message box built with bitmask `buttons` shows;
`mb.exec_()` returns one of these. -/
def shown_buttons (buttons : Nat) : List Nat :=
  [QMessageBox.Ok, QMessageBox.Yes, QMessageBox.No, QMessageBox.Cancel].filter
    (fun b => decide (buttons &&& b ≠ 0))

/-- `show_question`: `pressed` is the standard-button value `mb.exec_()`
returned (one of `shown_buttons (question_buttons cancel)`); the result is
the `answers` lookup `answers[mb.exec_()]`. -/
def show_question (cancel : Bool) (pressed : Nat) : Option (Option Bool) :=
  let _ := question_buttons cancel
  answers pressed

/-- One entry of the chosen directory as `pathlib.Path(directory).glob`
enumerates it: its bare name, and whether it is a regular file. -/
structure DirEntry where
  name : List Char
  isFile : Bool
  deriving DecidableEq, Repr

/-- Whether the glob pattern `'*.*'` matches an entry name.
`pathlib.Path.glob` compiles its patterns with `fnmatch.translate`, which
(unlike the `glob` module) has no special case for a leading dot, so `*`
matches any run of characters — hidden names included — and the pattern
matches exactly the names containing a dot. -/
def globDotStar (name : List Char) : Bool :=
  name.contains '.'

/-- `open_directory_chooser`: `directory` is the string
`QFileDialog.getExistingDirectory` returned (empty when cancelled) and
`entries` are the immediate children of that directory.  The comprehension
`[Path(f).absolute() for f in Path(directory).glob('*.*') if splitext(f.name)[1].lower()[1:] in IMAGE_FILE_EXTENSIONS]`
keeps every entry matched by the glob whose extension is whitelisted —
with no check that the entry is a regular file. -/
def open_directory_chooser (exts : List (List Char)) (entries : List DirEntry)
    (directory : List Char) : Option (List (List Char)) :=
  if directory ≠ [] then
    some (((entries.filter (fun f => globDotStar f.name)).filter
        (fun f => decide (extOf f.name ∈ exts))).map
      (fun f => directory ++ '/' :: f.name))
  else none

/-- A process launched by `subprocess.Popen`: either a single command-line
string or an argument vector. -/
inductive Command where
  | shell (cmd : List Char)
  | argv (args : List (List Char))
  deriving DecidableEq, Repr

/-- The result of `file_path.absolute()`: the absolute path, or the
`RuntimeError` raised when a symbolic-link loop is encountered. -/
inductive AbsResult where
  | ok (path : List Char)
  | runtimeError
  deriving DecidableEq, Repr

/-- `show_file`: `res` is the outcome of `file_path.absolute()` (the
`RuntimeError` branch is the `except` clause, which returns) and `os_name`
is `platform.system().lower()`.  The value is the list of processes the
call spawns. -/
def show_file (res : AbsResult) (os_name : List Char) : List Command :=
  match res with
  | .runtimeError => []
  | .ok path =>
    if os_name = "windows".toList then
      [.shell ("explorer /select,\"".toList ++ path ++ "\"".toList)]
    else if os_name = "linux".toList then
      [.argv ["dbus-send".toList, "--dest=org.freedesktop.FileManager1".toList,
              "--type=method_call".toList, "/org/freedesktop/FileManager1".toList,
              "org.freedesktop.FileManager1.ShowItems".toList,
              "array:string:".toList ++ path, "string:\"\"".toList]]
    else if os_name = "darwin".toList then
      [.argv ["open".toList, path]]
    else []

/-- A key event: its modifier bitmask `event.modifiers()` and key code
`event.key()`. -/
structure QKeyEvent where
  modifiers : Nat
  key : Nat
  deriving DecidableEq, Repr

/-- `get_key_sequence`: `QKeySequence(event.modifiers() | event.key())` — a
key sequence is a list of combined keystrokes, here of length one.  A
multi-stroke shortcut such as `Ctrl+X, Ctrl+S` has several elements. -/
def get_key_sequence (event : QKeyEvent) : List Nat :=
  [event.modifiers ||| event.key]

/-- Qt's `QKeySequence.SequenceMatch` enumeration. -/
inductive SequenceMatch where
  | NoMatch
  | PartialMatch
  | ExactMatch
  deriving DecidableEq, Repr

/-- Qt's `s.matches(ks)`: `ExactMatch` when the two sequences are equal,
`PartialMatch` when `ks` is a proper leading part of `s`, `NoMatch`
otherwise (toolkit behaviour, per the Qt documentation). -/
def seq_matches (s ks : List Nat) : SequenceMatch :=
  if s = ks then .ExactMatch
  else if decide (ks.length < s.length) && decide (s.take ks.length = ks) then
    .PartialMatch
  else .NoMatch

/-- `event_matches_action`:
`any([s.matches(ks) == QKeySequence.ExactMatch for s in action.shortcuts()])`,
with the action represented by its registered shortcut list. -/
def event_matches_action (event : QKeyEvent) (shortcuts : List (List Nat)) : Bool :=
  let ks := get_key_sequence event
  (shortcuts.map (fun s => decide (seq_matches s ks = .ExactMatch))).any id

/-! ## Helper lemmas -/

theorem check_ext_images (exts : List (List Char)) (p : List Char) :
    check_ext exts FILTER_IMAGES p = true ↔ extOf p ∈ exts := by
  simp [check_ext, FILTER_IMAGES, FILTER_DB]

theorem check_ext_db (exts : List (List Char)) (p : List Char) :
    check_ext exts FILTER_DB p = true ↔ extOf p = "sqlite3".toList := by
  simp [check_ext, FILTER_IMAGES, FILTER_DB]

theorem open_file_chooser_multi_eq (exts : List (List Char)) (mode : Nat)
    (sel res : List (List Char))
    (h : open_file_chooser_multi exts mode sel = some res) :
    res = sel.filter (check_ext exts mode) := by
  by_cases hs : sel = [] <;> simp [open_file_chooser_multi, hs] at h
  exact h.symm

theorem open_file_chooser_single_eq (exts : List (List Char)) (mode : Nat)
    (s p : List Char) (h : open_file_chooser_single exts mode s = some p) :
    p = s ∧ check_ext exts mode s = true := by
  by_cases hs : s = [] <;> simp [open_file_chooser_single, hs] at h
  by_cases hc : check_ext exts mode s = true <;> simp [hc] at h
  exact ⟨h.symm, hc⟩

theorem endswith_append (l t : List Char) : endswith (l ++ t) t = true := by
  simp only [endswith, Bool.and_eq_true, decide_eq_true_eq]
  refine ⟨by simp, ?_⟩
  have hlen : (l ++ t).length - t.length = l.length := by simp
  rw [hlen, List.drop_left]

theorem seq_matches_exact_iff (s ks : List Nat) :
    seq_matches s ks = .ExactMatch ↔ s = ks := by
  unfold seq_matches
  split
  · simp_all
  · split <;> simp_all

/-! ## Claim theorems -/

set_option maxRecDepth 8192 in
/-- Claim C2 (counterexample): `QColor(36, 51, 21)` has relative luminance
exactly `0.179` under the claim's exact formula, yet `font_color` returns
BLACK, not white: the program's double-precision evaluation yields
`0.17900000000000002`, which exceeds the threshold. -/
theorem font_color_boundary_cex :
    spec_luminance (QColor.mk 36 51 21 255) = 179 / 1000 ∧
    font_color (QColor.mk 36 51 21 255) = _BLACK := by
  constructor
  · show (2126 / 10000 * ((36 : ℚ) / 255) + 7152 / 10000 * ((51 : ℚ) / 255)
      + 722 / 10000 * ((21 : ℚ) / 255) : ℚ) = 179 / 1000
    norm_num
  · decide

/-- Claim C2 (amended): `font_color` returns black exactly when the
program's IEEE-double evaluation of
`0.2126 * redF + 0.7152 * greenF + 0.0722 * blueF` (each literal taken as
the nearest double, every product and sum rounded) strictly exceeds the
double nearest `0.179`, and white otherwise; the exact rational luminance
decides the comparison only where rounding does not cross the threshold. -/
theorem font_color_threshold_float (c : QColor) :
    (font_color c = _BLACK ↔
      dblLt (roundRat 179 1000)
        (dblAdd (dblAdd (dblMul (roundRat 2126 10000) (redF c))
            (dblMul (roundRat 7152 10000) (greenF c)))
          (dblMul (roundRat 722 10000) (blueF c))) = true) ∧
    (font_color c = _WHITE ↔
      ¬(dblLt (roundRat 179 1000)
        (dblAdd (dblAdd (dblMul (roundRat 2126 10000) (redF c))
            (dblMul (roundRat 7152 10000) (greenF c)))
          (dblMul (roundRat 722 10000) (blueF c))) = true)) := by
  have hne : _BLACK ≠ _WHITE := by decide
  have hL : dblAdd (dblAdd (dblMul (roundRat 2126 10000) (redF c))
      (dblMul (roundRat 7152 10000) (greenF c)))
      (dblMul (roundRat 722 10000) (blueF c)) = luminance c := rfl
  rw [hL]
  by_cases h : dblLt (roundRat 179 1000) (luminance c) = true
  · simp [font_color, h, hne]
  · simp [font_color, h, Ne.symm hne]

/-- Claim C6 (counterexample): `negate (negate c) = c` fails for the
translucent color `QColor(0, 0, 0, alpha=0)`, because `negate` constructs
its result with the default alpha 255. -/
theorem negate_negate_cex :
    negate (negate (QColor.mk 0 0 0 0)) ≠ QColor.mk 0 0 0 0 := by decide

/-- Claim C6 (amended): for every fully opaque color (alpha 255 — the value
every color built as `QColor(r, g, b)` has), double negation is the
identity, since each RGB channel is complemented as `255 - value` twice. -/
theorem negate_negate_opaque (c : QColor) (h : c.alpha = 255) :
    negate (negate c) = c := by
  obtain ⟨r, g, b, a⟩ := c
  have hr := r.isLt
  have hg := g.isLt
  have hb := b.isLt
  simp only [negate, QColor.mk.injEq]
  refine ⟨Fin.ext ?_, Fin.ext ?_, Fin.ext ?_, h.symm⟩
  · show 255 - (255 - r.val) = r.val; omega
  · show 255 - (255 - g.val) = g.val; omega
  · show 255 - (255 - b.val) = b.val; omega

/-- Witness for C6 (amended) at the opaque color `QColor(1, 2, 3)`. -/
theorem negate_negate_opaque_witness :
    negate (negate (QColor.mk 1 2 3 255)) = QColor.mk 1 2 3 255 :=
  negate_negate_opaque (QColor.mk 1 2 3 255) rfl

/-- Claim C10: `negate` always returns a fully opaque color — its alpha
channel is 255 whatever the input's alpha was, because the result is
constructed from the three complemented RGB channels only. -/
theorem negate_alpha (c : QColor) : (negate c).alpha = 255 := rfl

/-- Claim C1: whatever selection the underlying dialog returns, every path
in `open_file_chooser`'s result has its extension in the active filter's
whitelist (the image extensions under `FILTER_IMAGES`, `sqlite3` under
`FILTER_DB`); in multi-selection mode exactly the selected paths passing
the check are kept, and in single-selection mode a selection failing the
check yields `none`. -/
theorem open_file_chooser_whitelist (exts : List (List Char)) :
    (∀ sel res, open_file_chooser_multi exts FILTER_IMAGES sel = some res →
      ∀ p, p ∈ res ↔ p ∈ sel ∧ extOf p ∈ exts) ∧
    (∀ sel res, open_file_chooser_multi exts FILTER_DB sel = some res →
      ∀ p, p ∈ res ↔ p ∈ sel ∧ extOf p = "sqlite3".toList) ∧
    (∀ s p, open_file_chooser_single exts FILTER_IMAGES s = some p → extOf p ∈ exts) ∧
    (∀ s p, open_file_chooser_single exts FILTER_DB s = some p →
      extOf p = "sqlite3".toList) ∧
    (∀ mode s, check_ext exts mode s = false →
      open_file_chooser_single exts mode s = none) := by
  refine ⟨?_, ?_, ?_, ?_, ?_⟩
  · intro sel res h p
    rw [open_file_chooser_multi_eq exts FILTER_IMAGES sel res h, List.mem_filter,
      check_ext_images]
  · intro sel res h p
    rw [open_file_chooser_multi_eq exts FILTER_DB sel res h, List.mem_filter,
      check_ext_db]
  · intro s p h
    obtain ⟨hp, hc⟩ := open_file_chooser_single_eq exts FILTER_IMAGES s p h
    exact hp ▸ (check_ext_images exts s).mp hc
  · intro s p h
    obtain ⟨hp, hc⟩ := open_file_chooser_single_eq exts FILTER_DB s p h
    exact hp ▸ (check_ext_db exts s).mp hc
  · intro mode s hc
    by_cases hs : s = [] <;> simp [open_file_chooser_single, hs, hc]

/-- Witness for C1: the single-selection image chooser accepted `a.png`,
whose extension is indeed whitelisted. -/
theorem open_file_chooser_whitelist_witness :
    extOf "a.png".toList ∈ ["png".toList] :=
  (open_file_chooser_whitelist ["png".toList]).2.2.1 "a.png".toList "a.png".toList
    (by decide)

/-- Claim C9: in multi-selection mode a non-empty dialog selection whose
every path fails the extension check yields `some []`, while `none` is
returned exactly when the dialog itself returned no selection — so an
all-filtered selection and a cancellation are distinguishable. -/
theorem open_file_chooser_multi_empty_vs_cancel (exts : List (List Char)) (mode : Nat) :
    (∀ sel, sel ≠ [] → (∀ p ∈ sel, check_ext exts mode p = false) →
      open_file_chooser_multi exts mode sel = some []) ∧
    (∀ sel, open_file_chooser_multi exts mode sel = none ↔ sel = []) := by
  constructor
  · intro sel hsel hall
    simp only [open_file_chooser_multi, if_pos hsel, ne_eq, hsel, not_false_iff,
      ite_true, Option.some.injEq]
    rw [List.filter_eq_nil_iff]
    intro p hp
    simp [hall p hp]
  · intro sel
    by_cases hs : sel = [] <;> simp [open_file_chooser_multi, hs]

/-- Witness for C9: a non-empty selection `[x.txt]` in image mode is fully
filtered out, producing the empty list (not `none`). -/
theorem open_file_chooser_multi_empty_vs_cancel_witness :
    open_file_chooser_multi ["png".toList] FILTER_IMAGES ["x.txt".toList] = some [] :=
  (open_file_chooser_multi_empty_vs_cancel ["png".toList] FILTER_IMAGES).1
    ["x.txt".toList] (by decide) (by decide)

/-- Claim C3: every path `open_playlist_saver` returns ends in `.play`: the
extension is appended exactly once when the confirmed name lacks it, the
name is kept unchanged when it already ends in `.play`, and a cancelled
dialog (empty name) yields `none`. -/
theorem open_playlist_saver_play (file : List Char) :
    (∀ r, open_playlist_saver file = some r → endswith r ".play".toList = true) ∧
    (file ≠ [] → endswith file ".play".toList = false →
      open_playlist_saver file = some (file ++ ".play".toList)) ∧
    (file ≠ [] → endswith file ".play".toList = true →
      open_playlist_saver file = some file) ∧
    (open_playlist_saver file = none ↔ file = []) := by
  simp only [open_playlist_saver]
  generalize ".play".toList = E
  by_cases hf : file = []
  · subst hf
    simp
  · by_cases he : endswith file E = true
    · refine ⟨?_, ?_, ?_, ?_⟩
      · intro r hr
        simp [hf, he] at hr
        exact hr ▸ he
      · intro _ hcontra
        rw [he] at hcontra
        cases hcontra
      · intro _ _
        simp [hf, he]
      · simp [hf, he]
    · have he' : endswith file E = false := by
        cases hE : endswith file E
        · rfl
        · exact absurd hE he
      refine ⟨?_, ?_, ?_, ?_⟩
      · intro r hr
        simp [hf, he'] at hr
        exact hr ▸ endswith_append file E
      · intro _ _
        simp [hf, he']
      · intro _ hcontra
        rw [hcontra] at he'
        cases he'
      · simp [hf, he']

/-- Witness for C3: the name `x` gets `.play` appended exactly once. -/
theorem open_playlist_saver_play_witness :
    open_playlist_saver "x".toList = some ("x".toList ++ ".play".toList) :=
  (open_playlist_saver_play "x".toList).2.1 (by decide) (by decide)

/-- Claim C4: `show_question` maps the Yes button to `true`, No to `false`
and Cancel to the absent value; with `cancel=False` the dialog only shows
Yes and No, so the absent value is unreachable (and the `answers` lookup
never fails), while with `cancel=True` each of the three outcomes is
produced by pressing one of the shown buttons. -/
theorem show_question_tristate :
    (∀ cancel : Bool,
      show_question cancel QMessageBox.Yes = some (some true) ∧
      show_question cancel QMessageBox.No = some (some false) ∧
      show_question cancel QMessageBox.Cancel = some none) ∧
    (∀ pressed ∈ shown_buttons (question_buttons false),
      show_question false pressed ≠ some none ∧ show_question false pressed ≠ none) ∧
    ((∃ p ∈ shown_buttons (question_buttons true),
        show_question true p = some (some true)) ∧
     (∃ p ∈ shown_buttons (question_buttons true),
        show_question true p = some (some false)) ∧
     (∃ p ∈ shown_buttons (question_buttons true),
        show_question true p = some none)) := by
  decide

/-- Witness for C4: pressing Yes on a cancel-less question dialog does not
produce the absent value. -/
theorem show_question_tristate_witness :
    show_question false QMessageBox.Yes ≠ some none :=
  (show_question_tristate.2.1 QMessageBox.Yes (by decide)).1

/-- Claim C5 (counterexample): `open_directory_chooser` can return an entry
that is not a file.  With whitelist `[png]` and a directory whose only
child is a SUBDIRECTORY named `a.png`, the result is `[/d/a.png]` even
though nothing in the directory is a regular file — the comprehension
filters on the glob and the extension only, never on `is_file`. -/
theorem open_directory_chooser_nonfile_cex :
    open_directory_chooser ["png".toList]
        [{ name := "a.png".toList, isFile := false }] "/d".toList
      = some ["/d/a.png".toList] ∧
    ({ name := "a.png".toList, isFile := false } : DirEntry).isFile = false := by
  constructor
  · decide
  · rfl

/-- Claim C5 (amended): for every chosen directory, the returned list
contains exactly the immediate child ENTRIES — regular files or not,
hidden or not — whose name is matched by the glob pattern `*.*` (i.e.
contains a dot; pathlib's fnmatch-based glob matches hidden names too) and
whose extension is in the image whitelist, each as a directory-qualified
path; in particular non-file entries with matching names are returned. -/
theorem open_directory_chooser_glob (exts : List (List Char))
    (entries : List DirEntry) (directory : List Char) (hdir : directory ≠ [])
    (res : List (List Char))
    (hres : open_directory_chooser exts entries directory = some res) :
    ∀ q, q ∈ res ↔ ∃ e ∈ entries, globDotStar e.name = true ∧ extOf e.name ∈ exts ∧
      q = directory ++ '/' :: e.name := by
  have hres' : res = ((entries.filter (fun f => globDotStar f.name)).filter
      (fun f => decide (extOf f.name ∈ exts))).map
        (fun f => directory ++ '/' :: f.name) := by
    simp only [open_directory_chooser, if_pos hdir, ne_eq, hdir, not_false_iff,
      ite_true, Option.some.injEq] at hres
    exact hres.symm
  subst hres'
  intro q
  simp only [List.mem_map, List.mem_filter, decide_eq_true_eq]
  constructor
  · rintro ⟨e, ⟨⟨he, hg⟩, hx⟩, hq⟩
    exact ⟨e, he, hg, hx, hq.symm⟩
  · rintro ⟨e, he, hg, hx, hq⟩
    exact ⟨e, ⟨⟨he, hg⟩, hx⟩, hq.symm⟩

/-- Witness for C5 (amended): a directory holding the file `a.png`
(whitelist `[png]`) yields exactly `[/d/a.png]`. -/
theorem open_directory_chooser_glob_witness :
    "/d/a.png".toList ∈ ["/d/a.png".toList] ↔
      ∃ e ∈ [({ name := "a.png".toList, isFile := true } : DirEntry)],
        globDotStar e.name = true ∧ extOf e.name ∈ ["png".toList] ∧
        "/d/a.png".toList = "/d".toList ++ '/' :: e.name :=
  open_directory_chooser_glob ["png".toList]
    [{ name := "a.png".toList, isFile := true }] "/d".toList (by decide)
    ["/d/a.png".toList] (by decide) "/d/a.png".toList

/-- Claim C7: `show_file` is total (noexcept): a `RuntimeError` from
resolving a cyclic symbolic-link structure is swallowed and nothing is
launched; on Windows, Linux or macOS exactly one external process is
spawned; on any other operating system nothing is spawned. -/
theorem show_file_noexcept (res : AbsResult) (os_name : List Char) :
    (res = .runtimeError → show_file res os_name = []) ∧
    (∀ p, res = .ok p →
      (os_name = "windows".toList ∨ os_name = "linux".toList ∨
        os_name = "darwin".toList) →
      (show_file res os_name).length = 1) ∧
    (∀ p, res = .ok p →
      os_name ≠ "windows".toList → os_name ≠ "linux".toList →
      os_name ≠ "darwin".toList →
      show_file res os_name = []) := by
  refine ⟨?_, ?_, ?_⟩
  · intro h
    subst h
    rfl
  · intro p h hos
    subst h
    rcases hos with h | h | h <;> simp [show_file, h]
  · intro p h h1 h2 h3
    subst h
    show (if os_name = "windows".toList then _
      else if os_name = "linux".toList then _
      else if os_name = "darwin".toList then _ else []) = []
    rw [if_neg h1, if_neg h2, if_neg h3]

/-- Witness for C7: a resolved path on Windows spawns exactly one process. -/
theorem show_file_noexcept_witness :
    (show_file (.ok "/x".toList) "windows".toList).length = 1 :=
  (show_file_noexcept (.ok "/x".toList) "windows".toList).2.1 "/x".toList rfl
    (Or.inl rfl)

/-- Claim C8: `event_matches_action` is true exactly when the key sequence
built from the event's modifiers and key code equals one of the action's
registered shortcuts; a shortcut of which the event is only a partial
(prefix) match never makes it true. -/
theorem event_matches_action_exact (event : QKeyEvent)
    (shortcuts : List (List Nat)) :
    (event_matches_action event shortcuts = true ↔
      get_key_sequence event ∈ shortcuts) ∧
    ((∃ s ∈ shortcuts, seq_matches s (get_key_sequence event) = .PartialMatch) →
      get_key_sequence event ∉ shortcuts →
      event_matches_action event shortcuts = false) := by
  have hmain : event_matches_action event shortcuts = true ↔
      get_key_sequence event ∈ shortcuts := by
    have haux : ∀ (l : List (List Nat)),
        ((l.map (fun s =>
            decide (seq_matches s (get_key_sequence event) = .ExactMatch))).any id
          = true) ↔ get_key_sequence event ∈ l := by
      intro l
      induction l with
      | nil => simp
      | cons a as ih =>
        simp only [List.map_cons, List.any_cons, id_eq, Bool.or_eq_true]
        rw [ih]
        simp only [decide_eq_true_eq, seq_matches_exact_iff, List.mem_cons]
        constructor
        · rintro (h | h)
          · exact Or.inl h.symm
          · exact Or.inr h
        · rintro (h | h)
          · exact Or.inl h.symm
          · exact Or.inr h
    simpa only [event_matches_action] using haux shortcuts
  refine ⟨hmain, ?_⟩
  intro _ hnot
  cases hval : event_matches_action event shortcuts
  · rfl
  · exact absurd (hmain.mp hval) hnot

/-- Witness for C8: the event `Ctrl-ish 4|||1` (sequence `[5]`) is a prefix
of the two-stroke shortcut `[5, 6]` but does not match it. -/
theorem event_matches_action_exact_witness :
    event_matches_action { modifiers := 4, key := 1 } [[5, 6]] = false :=
  (event_matches_action_exact { modifiers := 4, key := 1 } [[5, 6]]).2
    ⟨[5, 6], by decide, by decide⟩ (by decide)

end Gui
